import Mathlib

/-!
Verification of the serverless-storage core: the `acquireLock` retry
algorithm, the `LockableStorageManager` façade, the `LocalFileStorageManager`
filesystem adapter and the `DynamoLockingManager` DynamoDB lock adapter.

Shallow embedding conventions:
* asynchronous calls are modelled as pure functions; the result of the i-th
  backend call is supplied by an oracle function of the call index;
* thrown exceptions become `Except`-style error values; a `try/catch` in the
  source becomes a `match` on that value;
* the embedding counts observable effects (lock attempts, `waitForTime`
  calls, backend invocations) so that claims about "no further attempts" or
  "no wait" can be stated as equalities on those counts.
-/

namespace ServerlessStorage

/-- State of one `acquireLock` execution: how many `lockingManager.lock`
calls have been made and how many `waitForTime(retryWait)` sleeps have been
performed so far. -/
structure AcqState where
  attempts : Nat
  waits : Nat
deriving DecidableEq, Repr

/-- Outcome of `acquireLock`, embedding of its three exits: normal return,
the thrown `AcquireLockError` (with its message), or an exception
propagating out of `lockingManager.lock`. Each exit carries the effect
counts at the moment of exit. -/
inductive AcqResult (ε : Type) where
  | ok : AcqState → AcqResult ε
  | acquireLockError : String → AcqState → AcqResult ε
  | backendError : ε → AcqState → AcqResult ε
deriving DecidableEq, Repr

/-- Embedding of the body of `acquireLock`'s `for (let i = 0; i < maxRetry; i++)`
loop from `utils.ts`.  `lockResult j` is the outcome of the j-th
`lockingManager.lock(pathToLock)` call (`.error e` = the call threw;
`.ok b` = it returned `b`).  The loop counter `i` is passed explicitly and
`fuel` counts the remaining iterations (`fuel = maxRetry - i` at every call
reachable from `acquireLock`), so the structural recursion terminates
exactly when the loop condition `i < maxRetry` fails.  The inner
`if (i < maxRetry)` guard before `await waitForTime(retryWait)` is kept
verbatim from the source (it is evaluated with the same `i` as the loop
condition, hence always true inside the body). -/
def acquireLoop (lockResult : Nat → Except ε Bool) (pathToLock : String)
    (maxRetry : Nat) : Nat → Nat → AcqState → AcqResult ε
  | 0, _, st =>
      .acquireLockError ("Could not acquire lock on path " ++ pathToLock ++ ".") st
  | fuel + 1, i, st =>
      match lockResult i with
      | .error e => .backendError e ⟨st.attempts + 1, st.waits⟩
      | .ok true => .ok ⟨st.attempts + 1, st.waits⟩
      | .ok false =>
          let st' : AcqState :=
            if i < maxRetry then ⟨st.attempts + 1, st.waits + 1⟩
            else ⟨st.attempts + 1, st.waits⟩
          acquireLoop lockResult pathToLock maxRetry fuel (i + 1) st'

/-- Embedding of `acquireLock(pathToLock, lockingManager, maxRetry, retryWait)`
from `utils.ts`: run the retry loop from `i = 0` with no effects performed
yet.  `retryWait` only scales the duration of each wait, so the embedding
tracks the number of waits; total wall-clock wait is `waits * retryWait`. -/
def acquireLock (pathToLock : String) (lockResult : Nat → Except ε Bool)
    (maxRetry : Nat) : AcqResult ε :=
  acquireLoop lockResult pathToLock maxRetry maxRetry 0 ⟨0, 0⟩

/-- Total wall-clock wait of an execution: each recorded wait sleeps for
`retryWait` milliseconds. -/
def AcqState.totalWait (st : AcqState) (retryWait : Nat) : Nat :=
  st.waits * retryWait

/-- A pluggable storage backend (`IStorageManager` implementation), modelled
as state-transforming operations on a backend state of type `σ`. -/
structure StorageBackend (σ : Type) where
  write : String → String → σ → σ
  read : String → String → σ → String
  delete : String → σ → σ
  «exists» : String → σ → Bool

/-- A pluggable locking backend (`ILockingManager` implementation), modelled
as state-transforming operations on a backend state of type `lam`. -/
structure LockingBackend (lam : Type) where
  lock : String → lam → Bool × lam
  unlock : String → lam → Bool × lam
  isLocked : String → lam → Bool

/-- One invocation of an underlying backend, with the arguments passed to
it; the façade's observable effect trace is a list of these. -/
inductive BackendCall where
  | storageWrite (data path : String)
  | storageRead (path dflt : String)
  | storageDelete (path : String)
  | storageExists (path : String)
  | lockingLock (path : String)
  | lockingUnlock (path : String)
  | lockingIsLocked (path : String)
deriving DecidableEq, Repr

/-- The world a `LockableStorageManager` call runs in: the storage backend's
state, the locking backend's state, and the trace of backend invocations
made so far. -/
structure World (σ lam : Type) where
  storage : σ
  locking : lam
  trace : List BackendCall

/-- Embedding of `LockableStorageMangerInput` (spelling kept from the
source): the optional backends injected at construction. -/
structure LockableStorageMangerInput (σ lam : Type) where
  storageManager : Option (StorageBackend σ)
  lockingManager : Option (LockingBackend lam)

namespace LockableStorageManager

/-- Embedding of `LockableStorageManager.read`: throws when no storage
backend was supplied, else delegates `read(path, __default)` verbatim. -/
def read (params : LockableStorageMangerInput σ lam) (path __default : String)
    (w : World σ lam) : Except String (String × World σ lam) :=
  match params.storageManager with
  | none => .error
      "[LockableStorageManager][read] Trying to use storage manager which does not exist."
  | some b => .ok (b.read path __default w.storage,
      { w with trace := w.trace ++ [.storageRead path __default] })

/-- Embedding of `LockableStorageManager.write`: throws when no storage
backend was supplied, else delegates `write(data, path)` verbatim. -/
def write (params : LockableStorageMangerInput σ lam) (data path : String)
    (w : World σ lam) : Except String (Unit × World σ lam) :=
  match params.storageManager with
  | none => .error
      "[LockableStorageManager][write] Trying to use storage manager which does not exist."
  | some b => .ok ((),
      { w with storage := b.write data path w.storage,
               trace := w.trace ++ [.storageWrite data path] })

/-- Embedding of `LockableStorageManager.delete`: throws when no storage
backend was supplied, else delegates `delete(path)` verbatim. -/
def delete (params : LockableStorageMangerInput σ lam) (path : String)
    (w : World σ lam) : Except String (Unit × World σ lam) :=
  match params.storageManager with
  | none => .error
      "[LockableStorageManager][delete] Trying to use storage manager which does not exist."
  | some b => .ok ((),
      { w with storage := b.delete path w.storage,
               trace := w.trace ++ [.storageDelete path] })

/-- Embedding of `LockableStorageManager.exists`: throws when no storage
backend was supplied, else delegates `exists(path)` verbatim. -/
def «exists» (params : LockableStorageMangerInput σ lam) (path : String)
    (w : World σ lam) : Except String (Bool × World σ lam) :=
  match params.storageManager with
  | none => .error
      "[LockableStorageManager][exists] Trying to use storage manager which does not exist."
  | some b => .ok (b.exists path w.storage,
      { w with trace := w.trace ++ [.storageExists path] })

/-- Embedding of `LockableStorageManager.lock`: throws when no locking
backend was supplied, else delegates `lock(path)` verbatim. -/
def lock (params : LockableStorageMangerInput σ lam) (path : String)
    (w : World σ lam) : Except String (Bool × World σ lam) :=
  match params.lockingManager with
  | none => .error
      "[LockableStorageManager][lock] Trying to use locking manager which does not exist."
  | some l =>
      let r := l.lock path w.locking
      .ok (r.1, { w with locking := r.2, trace := w.trace ++ [.lockingLock path] })

/-- Embedding of `LockableStorageManager.unlock`: throws when no locking
backend was supplied, else delegates `unlock(path)` verbatim. -/
def unlock (params : LockableStorageMangerInput σ lam) (path : String)
    (w : World σ lam) : Except String (Bool × World σ lam) :=
  match params.lockingManager with
  | none => .error
      "[LockableStorageManager][unlock] Trying to use locking manager which does not exist."
  | some l =>
      let r := l.unlock path w.locking
      .ok (r.1, { w with locking := r.2, trace := w.trace ++ [.lockingUnlock path] })

/-- Embedding of `LockableStorageManager.isLocked`: throws when no locking
backend was supplied, else delegates `isLocked(path)` verbatim. -/
def isLocked (params : LockableStorageMangerInput σ lam) (path : String)
    (w : World σ lam) : Except String (Bool × World σ lam) :=
  match params.lockingManager with
  | none => .error
      "[LockableStorageManager][isLocked] Trying to use locking manager which does not exist."
  | some l => .ok (l.isLocked path w.locking,
      { w with trace := w.trace ++ [.lockingIsLocked path] })

end LockableStorageManager

/-- The local filesystem's file contents: full path to contents, `none`
when no file exists at that path. Directory creation by `write` only
enables the file to be created and is not observable through contents. -/
def Fs : Type := String → Option String

/-- An error thrown by a Node `fs` call (`readFileSync`/`unlinkSync`);
`enoent` is the "no such file" code the source inspects in `delete`. -/
inductive FsError where
  | enoent
  | eacces
  | other (msg : String)
deriving DecidableEq, Repr

/-- Result of `fs.readFileSync(fullPath, 'utf-8')` on a healthy filesystem:
the contents when the file exists, the `ENOENT` exception otherwise. -/
def fsReadFileSync (fs : Fs) (fullPath : String) : Except FsError String :=
  match fs fullPath with
  | some s => .ok s
  | none => .error .enoent

namespace LocalFileStorageManager

/-- Embedding of `LocalFileStorageManager.write`: ensures the directory
exists, then `writeFileSync(path.join(rootDir, relativePath), data)` — the
contents at the joined full path become `data`. `pathJoin` abstracts Node's
`path.join`. -/
def write (pathJoin : String → String → String) (rootDir data relativePath : String)
    (fs : Fs) : Fs :=
  fun q => if q = pathJoin rootDir relativePath then some data else fs q

/-- Embedding of `LocalFileStorageManager.read`: `readFileSync` on the
joined full path inside `try`, returning its contents; ANY thrown error is
caught, logged, and mapped to `__default`. `readFileSync` is passed as an
oracle so that arbitrary failures (not only `ENOENT`) are covered. -/
def read (readFileSync : String → Except FsError String)
    (pathJoin : String → String → String)
    (rootDir relativePath __default : String) : String :=
  match readFileSync (pathJoin rootDir relativePath) with
  | .ok s => s
  | .error _ => __default

/-- Embedding of `LocalFileStorageManager.delete`: `unlinkSync` on the
joined full path inside `try`; when the file exists it is removed, when it
does not exist `unlinkSync` throws `ENOENT`, which is caught and logged, so
the call completes normally with the filesystem unchanged. -/
def delete (pathJoin : String → String → String) (rootDir relativePath : String)
    (fs : Fs) : Fs :=
  match fs (pathJoin rootDir relativePath) with
  | some _ => fun q => if q = pathJoin rootDir relativePath then none else fs q
  | none => fs

/-- Embedding of `LocalFileStorageManager.exists`:
`fs.existsSync(path.join(rootDir, relativePath))`. -/
def «exists» (pathJoin : String → String → String) (rootDir relativePath : String)
    (fs : Fs) : Bool :=
  (fs (pathJoin rootDir relativePath)).isSome

end LocalFileStorageManager

/-- A lock record in the DynamoDB locking table, as written by
`DynamoLockingManager.lock`: the item `{ id, createdAt, expireAt }` keyed by
the path. -/
structure LockRecord where
  createdAt : Nat
  expireAt : Nat
deriving DecidableEq, Repr

/-- The DynamoDB locking table: `id` (the path) to its lock record, `none`
when no item with that `id` exists. -/
def Table : Type := String → Option LockRecord

/-- An error raised by a DynamoDB call: the conditional-check failure the
condition expressions produce, or an infrastructure failure (network, auth,
throttling, ...). -/
inductive DynamoError where
  | conditionalCheckFailed
  | network
  | auth
  | throttling
  | other (msg : String)
deriving DecidableEq, Repr

/-- Semantics of `dynamoDb.put` with
`ConditionExpression: 'attribute_not_exists(id)'` on a healthy table:
fails with `ConditionalCheckFailedException` when an item with that `id`
exists (regardless of its `expireAt`), else inserts the item. -/
def dynamoConditionalPut (table : Table) (path : String) (rec : LockRecord) :
    Except DynamoError Table :=
  match table path with
  | some _ => .error .conditionalCheckFailed
  | none => .ok (fun q => if q = path then some rec else table q)

/-- Semantics of `dynamoDb.delete` with
`ConditionExpression: 'attribute_exists(id)'` on a healthy table: fails
with `ConditionalCheckFailedException` when no item with that `id` exists,
else removes it. -/
def dynamoConditionalDelete (table : Table) (path : String) :
    Except DynamoError Table :=
  match table path with
  | some _ => .ok (fun q => if q = path then none else table q)
  | none => .error .conditionalCheckFailed

namespace DynamoLockingManager

/-- Embedding of `DynamoLockingManager.lock`: put
`{ id: path, createdAt: now, expireAt: now + timeToLiveDurationInSeconds }`
under `attribute_not_exists(id)` inside `try`; `true` on success, and ANY
caught error — conditional-check failure or an injected infrastructure
error `infra` — is logged and mapped to `false` (table unchanged). -/
def lock (timeToLiveDurationInSeconds now : Nat) (table : Table) (path : String)
    (infra : Option DynamoError) : Bool × Table :=
  match infra with
  | some _ => (false, table)
  | none =>
      match dynamoConditionalPut table path
        ⟨now, now + timeToLiveDurationInSeconds⟩ with
      | .ok t => (true, t)
      | .error _ => (false, table)

/-- Embedding of `DynamoLockingManager.unlock`: delete the item under
`attribute_exists(id)` inside `try`; `true` on success, ANY caught error
mapped to `false` (table unchanged). -/
def unlock (table : Table) (path : String) (infra : Option DynamoError) :
    Bool × Table :=
  match infra with
  | some _ => (false, table)
  | none =>
      match dynamoConditionalDelete table path with
      | .ok t => (true, t)
      | .error _ => (false, table)

/-- Embedding of `DynamoLockingManager.isLocked`: get the item by `id`
inside `try` and return `!!response.Item` — item presence only, with no
comparison of `expireAt` against the current time; ANY caught error is
mapped to `false`. -/
def isLocked (table : Table) (path : String) (infra : Option DynamoError) : Bool :=
  match infra with
  | some _ => false
  | none => (table path).isSome

end DynamoLockingManager

/-- If every lock attempt in range returns `false`, the loop exhausts its
remaining `fuel` iterations, performing one lock call and one wait per
iteration (the inner `if (i < maxRetry)` guard is true at every reachable
iteration), and throws `AcquireLockError`. -/
theorem acquireLoop_allFalse (lr : Nat → Except ε Bool) (p : String) (maxRetry : Nat)
    (hfalse : ∀ j, j < maxRetry → lr j = Except.ok false) :
    ∀ fuel i st, i + fuel = maxRetry →
      acquireLoop lr p maxRetry fuel i st =
        .acquireLockError ("Could not acquire lock on path " ++ p ++ ".")
          ⟨st.attempts + fuel, st.waits + fuel⟩ := by
  intro fuel
  induction fuel with
  | zero => intro i st _; simp [acquireLoop]
  | succ n ih =>
      intro i st hinv
      have hi : i < maxRetry := by omega
      have hrec := ih (i + 1) ⟨st.attempts + 1, st.waits + 1⟩ (by omega)
      simp only [acquireLoop, hfalse i hi, if_pos hi, hrec,
        AcqResult.acquireLockError.injEq, AcqState.mk.injEq, true_and]
      omega

/-- When every `lockingManager.lock` call returns `false`, `acquireLock`
makes exactly `maxRetry` attempts, performs `maxRetry` waits — one after
every failed attempt, including the last — and throws `AcquireLockError`
naming the path. -/
theorem acquireLock_allFalse (lr : Nat → Except ε Bool) (p : String) (maxRetry : Nat)
    (hfalse : ∀ j, j < maxRetry → lr j = Except.ok false) :
    acquireLock p lr maxRetry =
      .acquireLockError ("Could not acquire lock on path " ++ p ++ ".")
        ⟨maxRetry, maxRetry⟩ := by
  have h := acquireLoop_allFalse lr p maxRetry hfalse maxRetry 0 ⟨0, 0⟩ (by omega)
  simpa [acquireLock] using h

/-- If the first `true` is returned by the `k`-th lock attempt (all earlier
attempts returning `false`), the loop returns successfully at that attempt:
`k - i` further failed attempts each followed by a wait, then the
successful call, then an immediate return with no wait. -/
theorem acquireLoop_firstTrue (lr : Nat → Except ε Bool) (p : String)
    (maxRetry k : Nat) (htrue : lr k = Except.ok true)
    (hfalse : ∀ j, j < k → lr j = Except.ok false) :
    ∀ fuel i st, i + fuel = maxRetry → i ≤ k → k < maxRetry →
      acquireLoop lr p maxRetry fuel i st =
        .ok ⟨st.attempts + (k - i) + 1, st.waits + (k - i)⟩ := by
  intro fuel
  induction fuel with
  | zero => intro i st hinv hik hk; omega
  | succ n ih =>
      intro i st hinv hik hk
      rcases Nat.eq_or_lt_of_le hik with heq | hlt
      · subst heq
        simp [acquireLoop, htrue]
      · have hi : i < maxRetry := by omega
        have hrec := ih (i + 1) ⟨st.attempts + 1, st.waits + 1⟩ (by omega) hlt hk
        simp only [acquireLoop, hfalse i hlt, if_pos hi, hrec,
          AcqResult.ok.injEq, AcqState.mk.injEq]
        omega

/-- If the `k`-th lock attempt throws `e` (all earlier attempts returning
`false`), the loop propagates `e` at that attempt: `k - i` failed attempts
each followed by a wait, then the throwing call, with no wait after it. -/
theorem acquireLoop_firstError (lr : Nat → Except ε Bool) (p : String)
    (maxRetry k : Nat) (e : ε) (herr : lr k = Except.error e)
    (hfalse : ∀ j, j < k → lr j = Except.ok false) :
    ∀ fuel i st, i + fuel = maxRetry → i ≤ k → k < maxRetry →
      acquireLoop lr p maxRetry fuel i st =
        .backendError e ⟨st.attempts + (k - i) + 1, st.waits + (k - i)⟩ := by
  intro fuel
  induction fuel with
  | zero => intro i st hinv hik hk; omega
  | succ n ih =>
      intro i st hinv hik hk
      rcases Nat.eq_or_lt_of_le hik with heq | hlt
      · subst heq
        simp [acquireLoop, herr]
      · have hi : i < maxRetry := by omega
        have hrec := ih (i + 1) ⟨st.attempts + 1, st.waits + 1⟩ (by omega) hlt hk
        simp only [acquireLoop, hfalse i hlt, if_pos hi, hrec,
          AcqResult.backendError.injEq, AcqState.mk.injEq, true_and]
        omega

end ServerlessStorage

/-- C6: for every path and every locking backend (oracle of lock-call
outcomes), `acquireLock(path, backend, 0, retryWaitMs)` performs no lock
attempt and no wait (`attempts = 0`, `waits = 0`) and immediately throws
`AcquireLockError` with the message "Could not acquire lock on path
{path}.", which identifies the path. -/
theorem acquireLock_maxRetry_zero {ε : Type} (lr : Nat → Except ε Bool) (p : String) :
    ServerlessStorage.acquireLock p lr 0 =
      .acquireLockError ("Could not acquire lock on path " ++ p ++ ".") ⟨0, 0⟩ :=
  rfl

/-- C1: evaluation of the code at the claim's own distinguished input.
With `maxRetry = 1` and the single `lock` call returning `false`,
`acquireLock` performs ONE wait before throwing `AcquireLockError`
(`waits = 1`, total wall-clock wait `1 * retryWaitMs`), because the guard
`if (i < maxRetry)` before the sleep is always true inside the loop; the
claim demands zero waits (`maxRetry - 1 = 0`, no trailing sleep). -/
theorem acquireLock_one_retry_trailing_wait :
    ServerlessStorage.acquireLock "p" (fun _ => (Except.ok false : Except Unit Bool)) 1 =
      .acquireLockError "Could not acquire lock on path p." ⟨1, 1⟩ :=
  rfl

/-- C4: if the `k`-th `lock(path)` call (0-indexed) throws exception `e`
after `k` earlier calls returned `false`, `acquireLock` propagates `e`
unchanged and immediately: exactly `k + 1` lock attempts are made (none
after the throw) and exactly `k` waits occur (no wait follows the throwing
attempt); the loop retries only on a returned `false`. -/
theorem acquireLock_error_propagates {ε : Type} (lr : Nat → Except ε Bool)
    (p : String) (maxRetry k : Nat) (e : ε) (hk : k < maxRetry)
    (herr : lr k = Except.error e)
    (hfalse : ∀ j, j < k → lr j = Except.ok false) :
    ServerlessStorage.acquireLock p lr maxRetry = .backendError e ⟨k + 1, k⟩ := by
  have h := ServerlessStorage.acquireLoop_firstError lr p maxRetry k e herr hfalse
    maxRetry 0 ⟨0, 0⟩ (by omega) (by omega) hk
  simpa [ServerlessStorage.acquireLock] using h

/-- Witness for C4 at a concrete input: the backend returns `false` on call
0 and throws `"boom"` on call 1; with `maxRetry = 5`, `acquireLock` exits
with that very error after 2 attempts and 1 wait. -/
theorem acquireLock_error_propagates_witness :
    ServerlessStorage.acquireLock "p"
        (fun j => if j = 0 then Except.ok false else Except.error "boom") 5 =
      .backendError "boom" ⟨2, 1⟩ :=
  acquireLock_error_propagates
    (fun j => if j = 0 then Except.ok false else Except.error "boom")
    "p" 5 1 "boom" (by decide) rfl
    (by intro j hj; interval_cases j; rfl)

/-- C5: if the `k`-th `lock(path)` call (0-indexed) returns `true` after
`k` earlier calls returned `false`, `acquireLock` returns successfully at
that point: exactly `k + 1` lock calls (none after the success) and
exactly `k` waits (no wait after the success), for a total wall-clock wait
of `k * retryWaitMs`. -/
theorem acquireLock_success {ε : Type} (lr : Nat → Except ε Bool)
    (p : String) (maxRetry k : Nat) (hk : k < maxRetry)
    (htrue : lr k = Except.ok true)
    (hfalse : ∀ j, j < k → lr j = Except.ok false) :
    ServerlessStorage.acquireLock p lr maxRetry = .ok ⟨k + 1, k⟩ ∧
      ∀ retryWait, ServerlessStorage.AcqState.totalWait ⟨k + 1, k⟩ retryWait =
        k * retryWait := by
  refine ⟨?_, fun _ => rfl⟩
  have h := ServerlessStorage.acquireLoop_firstTrue lr p maxRetry k htrue hfalse
    maxRetry 0 ⟨0, 0⟩ (by omega) (by omega) hk
  simpa [ServerlessStorage.acquireLock] using h

/-- Witness for C5 at the claim's concrete input: `maxRetry = 3` against a
backend answering `false, false, true`; `acquireLock` succeeds on the third
attempt after exactly two waits, and with `retryWaitMs = 100` the total
wait is `200`. -/
theorem acquireLock_success_witness :
    ServerlessStorage.acquireLock "p"
        (fun j => if j < 2 then Except.ok false else (Except.ok true : Except Unit Bool)) 3 =
        .ok ⟨3, 2⟩ ∧
      ServerlessStorage.AcqState.totalWait ⟨3, 2⟩ 100 = 200 := by
  have h := acquireLock_success
    (fun j => if j < 2 then Except.ok false else (Except.ok true : Except Unit Bool))
    "p" 3 2 (by decide) rfl
    (by intro j hj; interval_cases j <;> rfl)
  exact ⟨h.1, h.2 100⟩

/-- C2: a `LockableStorageManager` constructed without a storage backend
fails each of `write`, `read`, `delete`, `exists` with the configuration
error ("Trying to use storage manager which does not exist", the spec's
`BackendNotConfigured`) — never a silent no-op — while `lock`, `unlock`,
`isLocked` still delegate normally to an independently supplied locking
backend; symmetrically, a manager without a locking backend fails each of
`lock`, `unlock`, `isLocked` with the configuration error while the storage
operations still delegate normally. -/
theorem lockableStorageManager_missing_backend {σ lam : Type}
    (s : ServerlessStorage.StorageBackend σ)
    (l : ServerlessStorage.LockingBackend lam)
    (data path __default : String) (w : ServerlessStorage.World σ lam) :
    (ServerlessStorage.LockableStorageManager.write ⟨none, some l⟩ data path w =
      .error "[LockableStorageManager][write] Trying to use storage manager which does not exist.") ∧
    (ServerlessStorage.LockableStorageManager.read ⟨none, some l⟩ path __default w =
      .error "[LockableStorageManager][read] Trying to use storage manager which does not exist.") ∧
    (ServerlessStorage.LockableStorageManager.delete ⟨none, some l⟩ path w =
      .error "[LockableStorageManager][delete] Trying to use storage manager which does not exist.") ∧
    (ServerlessStorage.LockableStorageManager.exists ⟨none, some l⟩ path w =
      .error "[LockableStorageManager][exists] Trying to use storage manager which does not exist.") ∧
    (ServerlessStorage.LockableStorageManager.lock ⟨none, some l⟩ path w =
      .ok ((l.lock path w.locking).1,
        { w with locking := (l.lock path w.locking).2,
                 trace := w.trace ++ [.lockingLock path] })) ∧
    (ServerlessStorage.LockableStorageManager.unlock ⟨none, some l⟩ path w =
      .ok ((l.unlock path w.locking).1,
        { w with locking := (l.unlock path w.locking).2,
                 trace := w.trace ++ [.lockingUnlock path] })) ∧
    (ServerlessStorage.LockableStorageManager.isLocked ⟨none, some l⟩ path w =
      .ok (l.isLocked path w.locking,
        { w with trace := w.trace ++ [.lockingIsLocked path] })) ∧
    (ServerlessStorage.LockableStorageManager.lock ⟨some s, none⟩ path w =
      .error "[LockableStorageManager][lock] Trying to use locking manager which does not exist.") ∧
    (ServerlessStorage.LockableStorageManager.unlock ⟨some s, none⟩ path w =
      .error "[LockableStorageManager][unlock] Trying to use locking manager which does not exist.") ∧
    (ServerlessStorage.LockableStorageManager.isLocked ⟨some s, none⟩ path w =
      .error "[LockableStorageManager][isLocked] Trying to use locking manager which does not exist.") ∧
    (ServerlessStorage.LockableStorageManager.write ⟨some s, none⟩ data path w =
      .ok ((), { w with storage := s.write data path w.storage,
                        trace := w.trace ++ [.storageWrite data path] })) ∧
    (ServerlessStorage.LockableStorageManager.read ⟨some s, none⟩ path __default w =
      .ok (s.read path __default w.storage,
        { w with trace := w.trace ++ [.storageRead path __default] })) ∧
    (ServerlessStorage.LockableStorageManager.delete ⟨some s, none⟩ path w =
      .ok ((), { w with storage := s.delete path w.storage,
                        trace := w.trace ++ [.storageDelete path] })) ∧
    (ServerlessStorage.LockableStorageManager.exists ⟨some s, none⟩ path w =
      .ok (s.exists path w.storage,
        { w with trace := w.trace ++ [.storageExists path] })) :=
  ⟨rfl, rfl, rfl, rfl, rfl, rfl, rfl, rfl, rfl, rfl, rfl, rfl, rfl, rfl⟩

/-- C3: on a configured manager (any optional locking backend `l`),
`write(d, p)` and `delete(p)` invoke exactly one backend operation — the
storage backend's corresponding operation with the same arguments (the
effect trace grows by the single entry `storageWrite d p`, resp.
`storageDelete p`, so no `lock`/`unlock`/`isLocked` call and no retry
occurs) — and the locking state component is left unchanged: there is no
lock check before mutation. -/
theorem lockableStorageManager_write_delete_frame {σ lam : Type}
    (s : ServerlessStorage.StorageBackend σ)
    (l : Option (ServerlessStorage.LockingBackend lam))
    (data path : String) (w : ServerlessStorage.World σ lam) :
    (ServerlessStorage.LockableStorageManager.write ⟨some s, l⟩ data path w =
      .ok ((), { storage := s.write data path w.storage,
                 locking := w.locking,
                 trace := w.trace ++ [.storageWrite data path] })) ∧
    (ServerlessStorage.LockableStorageManager.delete ⟨some s, l⟩ path w =
      .ok ((), { storage := s.delete path w.storage,
                 locking := w.locking,
                 trace := w.trace ++ [.storageDelete path] })) :=
  ⟨rfl, rfl⟩

/-- C7: evaluation of the code at a lock record whose lease has expired.
The table holds the item `{ id: "locks/a", createdAt: 0, expireAt: 5 }`;
for every current time past 5 the lease has expired, yet
`DynamoLockingManager.isLocked` — which never consults the clock and only
tests `!!response.Item` — returns `true`, where the claim demands `false`
(an expired lease must read as unlocked). -/
theorem dynamoLockingManager_isLocked_expired_lease :
    ServerlessStorage.DynamoLockingManager.isLocked
      (fun q => if q = "locks/a" then some ⟨0, 5⟩ else none) "locks/a" none = true :=
  rfl

/-- C9: `DynamoLockingManager.lock`, `unlock` and `isLocked` never throw
(they are total, `Bool`-valued): every error raised by the underlying
DynamoDB call — an injected infrastructure error `e` (network, auth,
throttling, ...) just like the conditional-check failure for an
already-held lock — is caught and converted to `false` with the table left
unchanged. In particular `lock` on a table already holding the path also
returns `false`, so a caller cannot distinguish "already locked" from an
infrastructure failure. -/
theorem dynamoLockingManager_errors_to_false
    (ttl now : Nat) (table held : ServerlessStorage.Table) (path : String)
    (e : ServerlessStorage.DynamoError) (r : ServerlessStorage.LockRecord)
    (h : held path = some r) :
    (ServerlessStorage.DynamoLockingManager.lock ttl now table path (some e) =
      (false, table)) ∧
    (ServerlessStorage.DynamoLockingManager.unlock table path (some e) =
      (false, table)) ∧
    (ServerlessStorage.DynamoLockingManager.isLocked table path (some e) = false) ∧
    (ServerlessStorage.DynamoLockingManager.lock ttl now held path none =
      (false, held)) := by
  refine ⟨rfl, rfl, rfl, ?_⟩
  simp [ServerlessStorage.DynamoLockingManager.lock,
    ServerlessStorage.dynamoConditionalPut, h]

/-- Witness for C9 at a concrete input: an empty table with a network
failure injected, and a table already holding `"p"` with no failure; all
four calls return `false` and leave the table unchanged. -/
theorem dynamoLockingManager_errors_to_false_witness :
    (ServerlessStorage.DynamoLockingManager.lock 900 1000
        (fun _ => none) "p" (some .network) = (false, fun _ => none)) ∧
    (ServerlessStorage.DynamoLockingManager.unlock
        (fun _ => none) "p" (some .network) = (false, fun _ => none)) ∧
    (ServerlessStorage.DynamoLockingManager.isLocked
        (fun _ => none) "p" (some .network) = false) ∧
    (ServerlessStorage.DynamoLockingManager.lock 900 1000
        (fun q => if q = "p" then some ⟨0, 900⟩ else none) "p" none =
      (false, fun q => if q = "p" then some ⟨0, 900⟩ else none)) :=
  dynamoLockingManager_errors_to_false 900 1000 (fun _ => none)
    (fun q => if q = "p" then some ⟨0, 900⟩ else none) "p" .network ⟨0, 900⟩ rfl

/-- C8: `LocalFileStorageManager` round-trip, for every `path.join`
behaviour, root directory, path, data and filesystem state `fs`:
`write(d, p)` then `read(p, fallback)` returns `d`; `delete(p)` then
`read(p, fallback)` returns `fallback` — unconditionally, in particular on
the post-write state `write(d, p)`, so `delete` really removes written
data; and `delete(p)` on a never-written path (that leg alone assumes the
file is absent) completes without error (the `ENOENT` from `unlinkSync` is
caught), leaving the filesystem unchanged. -/
theorem localFileStorageManager_roundtrip
    (pathJoin : String → String → String) (rootDir d p fallback : String)
    (fs : ServerlessStorage.Fs) :
    (ServerlessStorage.LocalFileStorageManager.read
        (ServerlessStorage.fsReadFileSync
          (ServerlessStorage.LocalFileStorageManager.write pathJoin rootDir d p fs))
        pathJoin rootDir p fallback = d) ∧
    (ServerlessStorage.LocalFileStorageManager.read
        (ServerlessStorage.fsReadFileSync
          (ServerlessStorage.LocalFileStorageManager.delete pathJoin rootDir p fs))
        pathJoin rootDir p fallback = fallback) ∧
    (ServerlessStorage.LocalFileStorageManager.read
        (ServerlessStorage.fsReadFileSync
          (ServerlessStorage.LocalFileStorageManager.delete pathJoin rootDir p
            (ServerlessStorage.LocalFileStorageManager.write pathJoin rootDir d p fs)))
        pathJoin rootDir p fallback = fallback) ∧
    (fs (pathJoin rootDir p) = none →
      ServerlessStorage.LocalFileStorageManager.delete pathJoin rootDir p fs = fs) := by
  refine ⟨?_, ?_, ?_, ?_⟩
  · simp [ServerlessStorage.LocalFileStorageManager.read,
      ServerlessStorage.LocalFileStorageManager.write, ServerlessStorage.fsReadFileSync]
  · cases h : fs (pathJoin rootDir p) with
    | none =>
        simp [ServerlessStorage.LocalFileStorageManager.read,
          ServerlessStorage.LocalFileStorageManager.delete,
          ServerlessStorage.fsReadFileSync, h]
    | some s =>
        simp [ServerlessStorage.LocalFileStorageManager.read,
          ServerlessStorage.LocalFileStorageManager.delete,
          ServerlessStorage.fsReadFileSync, h]
  · simp [ServerlessStorage.LocalFileStorageManager.read,
      ServerlessStorage.LocalFileStorageManager.write,
      ServerlessStorage.LocalFileStorageManager.delete,
      ServerlessStorage.fsReadFileSync]
  · intro hnever
    simp [ServerlessStorage.LocalFileStorageManager.delete, hnever]

/-- Witness for C8 at a concrete input: `path.join` as `/`-concatenation,
root `"root"`, path `"f.txt"`, data `"data"`, fallback `"fb"`, over a
filesystem already holding `"old"` at the file (so the delete-then-read leg
exercises an existing file); the never-written leg is discharged on the
empty filesystem. -/
theorem localFileStorageManager_roundtrip_witness :
    (ServerlessStorage.LocalFileStorageManager.read
        (ServerlessStorage.fsReadFileSync
          (ServerlessStorage.LocalFileStorageManager.write
            (fun a b => a ++ "/" ++ b) "root" "data" "f.txt"
            (fun q => if q = "root/f.txt" then some "old" else none)))
        (fun a b => a ++ "/" ++ b) "root" "f.txt" "fb" = "data") ∧
    (ServerlessStorage.LocalFileStorageManager.read
        (ServerlessStorage.fsReadFileSync
          (ServerlessStorage.LocalFileStorageManager.delete
            (fun a b => a ++ "/" ++ b) "root" "f.txt"
            (fun q => if q = "root/f.txt" then some "old" else none)))
        (fun a b => a ++ "/" ++ b) "root" "f.txt" "fb" = "fb") ∧
    (ServerlessStorage.LocalFileStorageManager.read
        (ServerlessStorage.fsReadFileSync
          (ServerlessStorage.LocalFileStorageManager.delete
            (fun a b => a ++ "/" ++ b) "root" "f.txt"
            (ServerlessStorage.LocalFileStorageManager.write
              (fun a b => a ++ "/" ++ b) "root" "data" "f.txt"
              (fun q => if q = "root/f.txt" then some "old" else none))))
        (fun a b => a ++ "/" ++ b) "root" "f.txt" "fb" = "fb") ∧
    (ServerlessStorage.LocalFileStorageManager.delete
        (fun a b => a ++ "/" ++ b) "root" "f.txt" (fun _ => none) = fun _ => none) := by
  have h1 := localFileStorageManager_roundtrip (fun a b => a ++ "/" ++ b) "root"
    "data" "f.txt" "fb" (fun q => if q = "root/f.txt" then some "old" else none)
  have h2 := localFileStorageManager_roundtrip (fun a b => a ++ "/" ++ b) "root"
    "data" "f.txt" "fb" (fun _ => none)
  exact ⟨h1.1, h1.2.1, h1.2.2.1, h2.2.2.2 rfl⟩

/-- C10: `LocalFileStorageManager.read` returns the supplied default for
EVERY error raised by `readFileSync` — permission errors and arbitrary
failures just like file-not-found — and never throws (it is total,
`String`-valued). -/
theorem localFileStorageManager_read_error_default
    (e : ServerlessStorage.FsError) (pathJoin : String → String → String)
    (rootDir p __default : String) :
    ServerlessStorage.LocalFileStorageManager.read (fun _ => .error e)
      pathJoin rootDir p __default = __default :=
  rfl
